import Mathlib

/-
  Shallow embedding of the interest-bearing vault program
  (src/programs/interest_vault/src/lib.rs).

  Modelling conventions:
  - Machine integers (u8/u16/u32/u64/u128) are Nat with explicit bounds;
    wrapping arithmetic is taken modulo 2 ^ w (release-profile semantics of
    the source language), checked arithmetic returns an error on overflow,
    saturating arithmetic clamps with min.
  - Byte strings are List Nat (each entry a byte value).
  - The keccak256 hash syscall is an opaque parameter
    H : List Nat -> List Nat applied to the concatenated input chunks.
  - Cross-program token transfers (transfer / mint / burn) are the opaque
    external capability of spec section 6: they are assumed to succeed, and
    a returned error models the all-or-nothing rollback of the host, so an
    erroring operation leaves every record unchanged by construction.
  - A Rust panic (out-of-bounds slice, division by zero) is modelled by the
    distinguished outcome PErr.crashed, which is not a returned error code.
-/

deriving instance DecidableEq for Except

namespace InterestVault

/-- Fixed-point scale for the price per share, 1e12 (lib.rs line 20). -/
def RAY : Nat := 1000000000000

/-- One past the largest u64 value. -/
def U64MOD : Nat := 2 ^ 64

/-- One past the largest u128 value. -/
def U128MOD : Nat := 2 ^ 128

/-- Little-endian value of a byte list. -/
def leVal (bytes : List Nat) : Nat := bytes.foldr (fun b acc => b + 256 * acc) 0

/-- Read the little-endian integer stored in data[off .. off+n]. -/
def readLE (data : List Nat) (off n : Nat) : Nat := leVal ((data.drop off).take n)

/-- Little-endian byte encoding of v on n bytes (to_le_bytes). -/
def toLE : Nat → Nat → List Nat
  | 0, _ => []
  | n + 1, v => v % 256 :: toLE n (v / 256)

/-- Lexicographic comparison of equal-length byte arrays: the Rust derived
order on [u8; 32] used by verify_merkle (lib.rs line 115). -/
def bytesLe : List Nat → List Nat → Bool
  | [], [] => true
  | [], _ :: _ => true
  | _ :: _, [] => false
  | a :: as, b :: bs => if a < b then true else if b < a then false else bytesLe as bs

/-- Sorted-pair combination step of the merkle path: hash the concatenation
of the two nodes in ascending lexicographic order (lib.rs lines 113-117). -/
def sortedPairHash (H : List Nat → List Nat) (a b : List Nat) : List Nat :=
  if bytesLe a b then H (a ++ b) else H (b ++ a)

/-- Merkle path verification (lib.rs lines 110-120): fold the leaf through
the sorted-pair hash over the proof nodes and compare with the root. -/
def verify_merkle (H : List Nat → List Nat) (root leaf : List Nat)
    (proof : List (List Nat)) : Bool :=
  proof.foldl (fun cur node => sortedPairHash H cur node) leaf == root

/-- Vault accounting state: the numeric fields of VaultState
(lib.rs lines 42-54).  The identity / derivation plumbing fields (admin,
operator, mints, pda, bump) are external collaborators per spec section 1
and play no part in the accounting, so they are not modelled.
total_shares and pps are u128, buffered_base is u64. -/
structure VaultState where
  total_shares : Nat
  pps : Nat
  buffered_base : Nat
  deriving DecidableEq

/-- Boost epoch record (lib.rs lines 58-64): epoch is u64, root a 32-byte
hash, total_weight u128, boost_total u64. -/
structure BoostDistributor where
  epoch : Nat
  root : List Nat
  total_weight : Nat
  boost_total : Nat
  deriving DecidableEq

/-- Claim bitmap: 32 bytes, 256 claim bits (lib.rs lines 68-70). -/
structure ClaimBitmap256 where
  words : List Nat
  deriving DecidableEq

/-- Outcomes of an operation other than success.  The first three mirror the
ProgramError values actually returned by the source (InvalidArgument,
InvalidInstructionData, Custom n); crashed models a Rust panic such as an
out-of-bounds slice index, which aborts without returning an error code. -/
inductive PErr where
  | invalidArgument
  | invalidInstructionData
  | custom (code : Nat)
  | crashed
  deriving DecidableEq

/-- Fresh vault accounting state written by op_init (lib.rs lines 199-201):
total_shares = 0, pps = RAY, buffered_base = 0. -/
def initState : VaultState :=
  { total_shares := 0, pps := RAY, buffered_base := 0 }

/-- Buffered-donation settlement done at the top of deposit (lib.rs lines
244-248), the settleBuffer() of spec section 4.1: when buffered_base > 0
and total_shares > 0, add floor(buffered_base * RAY / total_shares) to pps
with a checked u128 add and zero the buffer; otherwise leave the state
unchanged. -/
def settleBuffer (st : VaultState) : Except PErr VaultState :=
  if st.buffered_base > 0 ∧ st.total_shares > 0 then
    let delta := st.buffered_base * RAY / st.total_shares
    if st.pps + delta < U128MOD then
      Except.ok { st with pps := st.pps + delta, buffered_base := 0 }
    else Except.error PErr.invalidInstructionData
  else Except.ok st

/-- Deposit logic after payload parsing (lib.rs lines 243-271).
Steps: settle the buffer, compute shares = amount * RAY / pps (the two
branches of the source conditional are the same expression; amount * RAY
cannot overflow u128 since amount < 2^64 and RAY < 2^40; a division by a
zero pps would be a Rust panic), convert the minted amount to u64, and do
a checked add on total_shares.  Returns the new state and the minted
shares. -/
def deposit_core (st : VaultState) (amount : Nat) :
    Except PErr (VaultState × Nat) :=
  match settleBuffer st with
  | Except.error e => Except.error e
  | Except.ok st1 =>
    if st1.pps = 0 then Except.error PErr.crashed
    else
      let shares := amount * RAY / st1.pps
      if shares ≥ U64MOD then Except.error PErr.invalidInstructionData
      else if st1.total_shares + shares < U128MOD then
        Except.ok ({ st1 with total_shares := st1.total_shares + shares }, shares)
      else Except.error PErr.invalidInstructionData

/-- Withdraw logic after payload parsing (lib.rs lines 294-328):
amount_out = shares * pps / RAY with a checked u128 multiply, converted to
u64, then a checked subtract on total_shares.  Returns the new state and
the transferred amount. -/
def withdraw_core (st : VaultState) (shares_burn : Nat) :
    Except PErr (VaultState × Nat) :=
  if shares_burn * st.pps ≥ U128MOD then Except.error PErr.invalidInstructionData
  else
    let amount_out := shares_burn * st.pps / RAY
    if amount_out ≥ U64MOD then Except.error PErr.invalidInstructionData
    else if shares_burn ≤ st.total_shares then
      Except.ok ({ st with total_shares := st.total_shares - shares_burn }, amount_out)
    else Except.error PErr.invalidInstructionData

/-- Base-yield application of donate (lib.rs lines 381-387), the
applyYield() of spec section 4.1: when total_shares > 0, bump pps by
floor(base * RAY / total_shares) with a checked u128 add; otherwise add
base to buffered_base with a saturating u64 add. -/
def applyBaseYield (st : VaultState) (base : Nat) : Except PErr VaultState :=
  if st.total_shares > 0 then
    let delta := base * RAY / st.total_shares
    if st.pps + delta < U128MOD then
      Except.ok { st with pps := st.pps + delta }
    else Except.error PErr.invalidInstructionData
  else Except.ok { st with buffered_base := min (st.buffered_base + base) (U64MOD - 1) }

/-- Epoch-record update of donate (lib.rs lines 390-395): an unbound record
(epoch 0) is bound to the supplied epoch, a bound record must match it,
and boost_total is increased by the boost portion with a saturating u64
add. -/
def updateDistributor (bd : BoostDistributor) (epoch boost : Nat) :
    Except PErr BoostDistributor :=
  let bd1 := if bd.epoch = 0 then { bd with epoch := epoch } else bd
  if bd1.epoch ≠ epoch then Except.error PErr.invalidArgument
  else Except.ok { bd1 with boost_total := min (bd1.boost_total + boost) (U64MOD - 1) }

/-- Donate logic after payload parsing (lib.rs lines 353-397).
boost = amount * boost_bps / 10000 in wrapping u64 arithmetic,
base = amount - boost in wrapping u64 arithmetic; base is applied via
applyBaseYield, then the optional epoch record is updated via
updateDistributor.  Returns the new vault state, the new epoch record, and
the (boost, base) split. -/
def donate_core (st : VaultState) (bdOpt : Option BoostDistributor)
    (amount epoch boost_bps : Nat) :
    Except PErr (VaultState × Option BoostDistributor × Nat × Nat) :=
  let boost := amount * boost_bps % U64MOD / 10000
  let base := (amount + (U64MOD - boost)) % U64MOD
  match applyBaseYield st base with
  | Except.error e => Except.error e
  | Except.ok st1 =>
    match bdOpt with
    | none => Except.ok (st1, none, boost, base)
    | some bd =>
      match updateDistributor bd epoch boost with
      | Except.error e => Except.error e
      | Except.ok bd1 => Except.ok (st1, some bd1, boost, base)

/-- Root posting logic after payload parsing (lib.rs lines 414-418):
unconditionally overwrite epoch, total_weight and root; boost_total and
padding are not written. -/
def post_root_core (bd : BoostDistributor) (epoch total_weight : Nat)
    (root : List Nat) : BoostDistributor :=
  { bd with epoch := epoch, total_weight := total_weight, root := root }

/-- Payout of a claim (lib.rs lines 480-483): the boost total is widened to
u128 and multiplied by the claimed weight with a saturating u128 multiply,
then divided by the total weight. -/
def claimAmount (bd : BoostDistributor) (weight : Nat) : Nat :=
  min (bd.boost_total * weight) (U128MOD - 1) / bd.total_weight

/-- Domain tag of a weight leaf: the byte string "weight" (lib.rs line 461). -/
def weightTag : List Nat := [119, 101, 105, 103, 104, 116]

/-- Domain-separated claim leaf (lib.rs lines 456-465):
keccak of "weight", the 4-byte little-endian index, the 32-byte claimer
key, and the 16-byte little-endian weight. -/
def claimLeaf (H : List Nat → List Nat) (index : Nat) (claimer : List Nat)
    (weight : Nat) : List Nat :=
  H (weightTag ++ toLE 4 index ++ claimer ++ toLE 16 weight)

/-- Claim logic after payload parsing (lib.rs lines 441-500), for a payload
whose proof region is exactly proof_len well-formed 32-byte nodes.
Order of checks as in the source: epoch match, nonzero total weight, bitmap
index range, claim bit clear, proof length at most 16, merkle path, payout
fits u64.  On success the distributor is unchanged, the claim bit is set,
and the payout is transferred. -/
def claim_core (H : List Nat → List Nat) (claimer : List Nat)
    (bd : BoostDistributor) (bm : ClaimBitmap256)
    (epoch index weight : Nat) (proof : List (List Nat)) :
    Except PErr (BoostDistributor × ClaimBitmap256 × Nat) :=
  if bd.epoch ≠ epoch then Except.error PErr.invalidArgument
  else if bd.total_weight = 0 then Except.error PErr.invalidInstructionData
  else if index / 8 ≥ bm.words.length then Except.error PErr.invalidInstructionData
  else if (bm.words.getD (index / 8) 0) &&& 2 ^ (index % 8) ≠ 0 then
    Except.error (PErr.custom 1)
  else if proof.length > 16 then Except.error PErr.invalidInstructionData
  else if verify_merkle H bd.root (claimLeaf H index claimer weight) proof = false then
    Except.error PErr.invalidArgument
  else if claimAmount bd weight ≥ U64MOD then Except.error PErr.invalidInstructionData
  else
    Except.ok (bd,
      ClaimBitmap256.mk
        (bm.words.set (index / 8)
          ((bm.words.getD (index / 8) 0) ||| 2 ^ (index % 8))),
      claimAmount bd weight)

/-- Deposit instruction on its raw payload (lib.rs lines 210-271):
amount from bytes 0..8 and decimals from byte 8; slicing a payload shorter
than 9 bytes is an out-of-bounds panic. -/
def op_deposit (st : VaultState) (data : List Nat) :
    Except PErr (VaultState × Nat) :=
  if data.length < 9 then Except.error PErr.crashed
  else deposit_core st (readLE data 0 8)

/-- Withdraw instruction on its raw payload (lib.rs lines 275-328):
share count from bytes 0..8 and decimals from byte 8; slicing a payload
shorter than 9 bytes is an out-of-bounds panic. -/
def op_withdraw (st : VaultState) (data : List Nat) :
    Except PErr (VaultState × Nat) :=
  if data.length < 9 then Except.error PErr.crashed
  else withdraw_core st (readLE data 0 8)

/-- Donate instruction on its raw payload (lib.rs lines 332-397): amount
from bytes 0..8, epoch from 8..16, boost_bps from 16..18, decimals from
byte 18; slicing a payload shorter than 19 bytes is an out-of-bounds
panic. -/
def op_donate (st : VaultState) (bdOpt : Option BoostDistributor)
    (data : List Nat) :
    Except PErr (VaultState × Option BoostDistributor × Nat × Nat) :=
  if data.length < 19 then Except.error PErr.crashed
  else donate_core st bdOpt (readLE data 0 8) (readLE data 8 8) (readLE data 16 2)

/-- PostRoot instruction on its raw payload (lib.rs lines 401-419): epoch
from bytes 0..8, total_weight from 8..24, root from 24..56; slicing a
payload shorter than 56 bytes is an out-of-bounds panic. -/
def op_post_root (bd : BoostDistributor) (data : List Nat) :
    Except PErr BoostDistributor :=
  if data.length < 56 then Except.error PErr.crashed
  else Except.ok (post_root_core bd (readLE data 0 8) (readLE data 8 16)
    ((data.drop 24).take 32))

/-- Claim instruction on its raw payload (lib.rs lines 422-501), mirroring
the source order of parsing and checks: epoch from bytes 0..8, index from
8..12, weight from 12..28, proof_len from byte 28 (slicing a payload
shorter than 29 bytes is an out-of-bounds panic); then epoch match,
nonzero total weight, bitmap range and bit, payload long enough for
proof_len nodes, proof_len at most 16, merkle path over the 32-byte nodes
read from byte 29 on, payout conversion to u64, and finally the bit set. -/
def op_claim (H : List Nat → List Nat) (claimer : List Nat)
    (bd : BoostDistributor) (bm : ClaimBitmap256) (data : List Nat) :
    Except PErr (BoostDistributor × ClaimBitmap256 × Nat) :=
  if data.length < 29 then Except.error PErr.crashed
  else
    let epoch := readLE data 0 8
    let index := readLE data 8 4
    let weight := readLE data 12 16
    let proof_len := data.getD 28 0
    if bd.epoch ≠ epoch then Except.error PErr.invalidArgument
    else if bd.total_weight = 0 then Except.error PErr.invalidInstructionData
    else if index / 8 ≥ bm.words.length then Except.error PErr.invalidInstructionData
    else if (bm.words.getD (index / 8) 0) &&& 2 ^ (index % 8) ≠ 0 then
      Except.error (PErr.custom 1)
    else if data.length < 29 + proof_len * 32 then Except.error PErr.invalidInstructionData
    else if proof_len > 16 then Except.error PErr.invalidInstructionData
    else
      let proof := (List.range proof_len).map
        (fun i => (data.drop (29 + 32 * i)).take 32)
      if verify_merkle H bd.root (claimLeaf H index claimer weight) proof = false then
        Except.error PErr.invalidArgument
      else if claimAmount bd weight ≥ U64MOD then Except.error PErr.invalidInstructionData
      else
        Except.ok (bd,
          ClaimBitmap256.mk
            (bm.words.set (index / 8)
              ((bm.words.getD (index / 8) 0) ||| 2 ^ (index % 8))),
          claimAmount bd weight)

/-- Wire encoding of a claim payload (spec section 6): epoch on 8 bytes,
index on 4, weight on 16, proof_len on 1, then the 32-byte siblings. -/
def claimData (epoch index weight : Nat) (proof : List (List Nat)) : List Nat :=
  toLE 8 epoch ++ toLE 4 index ++ toLE 16 weight ++ [proof.length] ++ proof.flatten

-- ---------- Byte-level helper lemmas ----------

lemma toLE_length (n v : Nat) : (toLE n v).length = n := by
  induction n generalizing v with
  | zero => rfl
  | succ n ih => simp [toLE, ih]

lemma leVal_toLE (n v : Nat) : leVal (toLE n v) = v % 256 ^ n := by
  induction n generalizing v with
  | zero => simp [toLE, leVal, Nat.mod_one]
  | succ n ih =>
    have h256 : (256 : Nat) ^ (n + 1) = 256 * 256 ^ n := by ring
    simp only [toLE, leVal, List.foldr_cons]
    have : leVal (toLE n (v / 256)) = v / 256 % 256 ^ n := ih (v / 256)
    simp only [leVal] at this
    rw [this, h256, Nat.mod_mul]

lemma drop_len_append (l₁ l₂ : List Nat) (k : Nat) (h : l₁.length = k) :
    (l₁ ++ l₂).drop k = l₂ := by
  subst h; exact List.drop_left l₁ l₂

lemma take_len_append (l₁ l₂ : List Nat) (k : Nat) (h : l₁.length = k) :
    (l₁ ++ l₂).take k = l₁ := by
  subst h; exact List.take_left l₁ l₂

lemma readLE_at (data pre rest : List Nat) (off n v : Nat)
    (hsplit : data = pre ++ (toLE n v ++ rest)) (hoff : pre.length = off) :
    readLE data off n = v % 256 ^ n := by
  subst hsplit
  unfold readLE
  rw [drop_len_append _ _ _ hoff,
    take_len_append (toLE n v) rest n (toLE_length n v), leVal_toLE]

lemma getD_eq_drop_headD (l : List Nat) (n d : Nat) :
    l.getD n d = (l.drop n).headD d := by
  rw [List.getD_eq_getElem?_getD, ← List.head?_drop]
  cases l.drop n <;> rfl

lemma flatten_length_32 (proof : List (List Nat))
    (h : ∀ x ∈ proof, x.length = 32) :
    proof.flatten.length = 32 * proof.length := by
  induction proof with
  | nil => rfl
  | cons p ps ih =>
    have hp : p.length = 32 := h p (by simp)
    have hps : ∀ x ∈ ps, x.length = 32 := fun x hx => h x (by simp [hx])
    simp [List.flatten, hp, ih hps, Nat.mul_succ]
    omega

lemma flatten_chunks (proof : List (List Nat))
    (h : ∀ x ∈ proof, x.length = 32) :
    (List.range proof.length).map
      (fun i => (proof.flatten.drop (32 * i)).take 32) = proof := by
  induction proof with
  | nil => rfl
  | cons p ps ih =>
    have hp : p.length = 32 := h p (by simp)
    have hps : ∀ x ∈ ps, x.length = 32 := fun x hx => h x (by simp [hx])
    simp only [List.length_cons, List.range_succ_eq_map, List.map_cons,
      List.map_map, List.cons.injEq]
    constructor
    · rw [Nat.mul_zero, List.drop_zero]
      exact take_len_append p ps.flatten 32 hp
    · have hmap :
          List.map
            ((fun i => List.take 32 (List.drop (32 * i) (p :: ps).flatten)) ∘ Nat.succ)
            (List.range ps.length)
          = List.map (fun i => List.take 32 (List.drop (32 * i) ps.flatten))
              (List.range ps.length) := by
        apply List.map_congr_left
        intro a _
        simp only [Function.comp_apply, Nat.succ_eq_add_one]
        have h32a : 32 * (a + 1) = p.length + 32 * a := by rw [hp]; ring
        rw [List.flatten_cons, h32a, List.drop_append]
      rw [hmap, ih hps]

lemma claimData_split (e i w : Nat) (proof : List (List Nat)) :
    claimData e i w proof =
      (toLE 8 e ++ toLE 4 i ++ toLE 16 w ++ [proof.length]) ++ proof.flatten := by
  simp [claimData]

lemma claimData_length (e i w : Nat) (proof : List (List Nat))
    (h32 : ∀ x ∈ proof, x.length = 32) :
    (claimData e i w proof).length = 29 + 32 * proof.length := by
  rw [claimData_split]
  simp [toLE_length, flatten_length_32 proof h32]
  omega

lemma claimData_epoch (e i w : Nat) (proof : List (List Nat)) (he : e < U64MOD) :
    readLE (claimData e i w proof) 0 8 = e := by
  have h := readLE_at (claimData e i w proof) []
    (toLE 4 i ++ toLE 16 w ++ [proof.length] ++ proof.flatten) 0 8 e
    (by simp [claimData]) rfl
  rw [h]
  apply Nat.mod_eq_of_lt
  calc e < U64MOD := he
    _ = 256 ^ 8 := by norm_num [U64MOD]

lemma claimData_index (e i w : Nat) (proof : List (List Nat)) (hi : i < 2 ^ 32) :
    readLE (claimData e i w proof) 8 4 = i := by
  have h := readLE_at (claimData e i w proof) (toLE 8 e)
    (toLE 16 w ++ [proof.length] ++ proof.flatten) 8 4 i
    (by simp [claimData]) (toLE_length 8 e)
  rw [h]
  apply Nat.mod_eq_of_lt
  calc i < 2 ^ 32 := hi
    _ = 256 ^ 4 := by norm_num

lemma claimData_weight (e i w : Nat) (proof : List (List Nat)) (hw : w < U128MOD) :
    readLE (claimData e i w proof) 12 16 = w := by
  have h := readLE_at (claimData e i w proof) (toLE 8 e ++ toLE 4 i)
    ([proof.length] ++ proof.flatten) 12 16 w
    (by simp [claimData]) (by simp [toLE_length])
  rw [h]
  apply Nat.mod_eq_of_lt
  calc w < U128MOD := hw
    _ = 256 ^ 16 := by norm_num [U128MOD]

lemma claimData_prooflen (e i w : Nat) (proof : List (List Nat)) :
    (claimData e i w proof).getD 28 0 = proof.length := by
  rw [getD_eq_drop_headD]
  have hsp : claimData e i w proof
      = (toLE 8 e ++ toLE 4 i ++ toLE 16 w) ++ ([proof.length] ++ proof.flatten) := by
    simp [claimData]
  rw [hsp, drop_len_append _ _ 28 (by simp [toLE_length])]
  rfl

/-- On a well-formed claim payload (the wire encoding of spec section 6 with
32-byte proof nodes and in-range fields), the byte-level claim instruction
agrees with the parsed claim logic. -/
lemma op_claim_claimData (H : List Nat → List Nat) (claimer : List Nat)
    (bd : BoostDistributor) (bm : ClaimBitmap256) (e i w : Nat)
    (proof : List (List Nat))
    (he : e < U64MOD) (hi : i < 2 ^ 32) (hw : w < U128MOD)
    (h32 : ∀ x ∈ proof, x.length = 32) :
    op_claim H claimer bd bm (claimData e i w proof)
      = claim_core H claimer bd bm e i w proof := by
  have hL := claimData_length e i w proof h32
  have h0 := claimData_epoch e i w proof he
  have h1 := claimData_index e i w proof hi
  have h2 := claimData_weight e i w proof hw
  have h3 := claimData_prooflen e i w proof
  have h4 : (List.range proof.length).map
      (fun k => ((claimData e i w proof).drop (29 + 32 * k)).take 32) = proof := by
    have hpre : (toLE 8 e ++ toLE 4 i ++ toLE 16 w ++ [proof.length]).length = 29 := by
      simp [toLE_length]
    have hstep : ∀ k : Nat,
        ((claimData e i w proof).drop (29 + 32 * k)).take 32
          = (proof.flatten.drop (32 * k)).take 32 := by
      intro k
      rw [claimData_split]
      have h29 : 29 + 32 * k
          = (toLE 8 e ++ toLE 4 i ++ toLE 16 w ++ [proof.length]).length + 32 * k := by
        rw [hpre]
      rw [h29, List.drop_append]
    calc (List.range proof.length).map
          (fun k => ((claimData e i w proof).drop (29 + 32 * k)).take 32)
        = (List.range proof.length).map
            (fun k => (proof.flatten.drop (32 * k)).take 32) := by
          exact List.map_congr_left (fun a _ => hstep a)
      _ = proof := flatten_chunks proof h32
  have hc1 : ¬ ((claimData e i w proof).length < 29) := by omega
  have hc2 : ¬ ((claimData e i w proof).length < 29 + proof.length * 32) := by omega
  simp only [op_claim, h0, h1, h2, h3, h4, if_neg hc1, if_neg hc2, claim_core]

-- ---------- Bitmap helper lemmas ----------

lemma land_two_pow_eq_zero_iff (x b : Nat) :
    x &&& 2 ^ b = 0 ↔ x.testBit b = false := by
  rw [Nat.and_two_pow]
  cases h : x.testBit b
  · simp
  · have hpow : (2 : Nat) ^ b ≠ 0 :=
      Nat.pos_iff_ne_zero.mp (Nat.pos_pow_of_pos b (by norm_num))
    simp [hpow]

lemma getD_set_self (l : List Nat) (n v : Nat) (h : n < l.length) :
    (l.set n v).getD n 0 = v := by
  rw [List.getD_eq_getElem?_getD, List.getElem?_set_self h]
  rfl

/-- Shape of a successful parsed claim: every guard of the source passed,
the distributor is returned unchanged, the payout is claimAmount, and the
claim bit is set in the returned bitmap. -/
lemma claim_core_ok (H : List Nat → List Nat) (claimer : List Nat)
    (bd : BoostDistributor) (bm : ClaimBitmap256) (e i w : Nat)
    (proof : List (List Nat)) (bd' : BoostDistributor) (bm' : ClaimBitmap256)
    (pay : Nat)
    (h : claim_core H claimer bd bm e i w proof = Except.ok (bd', bm', pay)) :
    bd' = bd ∧ pay = claimAmount bd w ∧ claimAmount bd w < U64MOD
      ∧ bd.epoch = e ∧ bd.total_weight ≠ 0
      ∧ i / 8 < bm.words.length
      ∧ (bm.words.getD (i / 8) 0) &&& 2 ^ (i % 8) = 0
      ∧ proof.length ≤ 16
      ∧ verify_merkle H bd.root (claimLeaf H i claimer w) proof = true
      ∧ bm' = ClaimBitmap256.mk
          (bm.words.set (i / 8) ((bm.words.getD (i / 8) 0) ||| 2 ^ (i % 8))) := by
  unfold claim_core at h
  by_cases c1 : bd.epoch ≠ e
  · rw [if_pos c1] at h; exact Except.noConfusion h
  rw [if_neg c1] at h
  by_cases c2 : bd.total_weight = 0
  · rw [if_pos c2] at h; exact Except.noConfusion h
  rw [if_neg c2] at h
  by_cases c3 : i / 8 ≥ bm.words.length
  · rw [if_pos c3] at h; exact Except.noConfusion h
  rw [if_neg c3] at h
  by_cases c4 : (bm.words.getD (i / 8) 0) &&& 2 ^ (i % 8) ≠ 0
  · rw [if_pos c4] at h; exact Except.noConfusion h
  rw [if_neg c4] at h
  by_cases c5 : proof.length > 16
  · rw [if_pos c5] at h; exact Except.noConfusion h
  rw [if_neg c5] at h
  by_cases c6 : verify_merkle H bd.root (claimLeaf H i claimer w) proof = false
  · rw [if_pos c6] at h; exact Except.noConfusion h
  rw [if_neg c6] at h
  by_cases c7 : claimAmount bd w ≥ U64MOD
  · rw [if_pos c7] at h; exact Except.noConfusion h
  rw [if_neg c7] at h
  simp only [Except.ok.injEq, Prod.mk.injEq] at h
  obtain ⟨hbd, hbm, hpay⟩ := h
  refine ⟨hbd.symm, hpay.symm, by omega, by push_neg at c1; exact c1, c2,
    by omega, by push_neg at c4; exact c4, by omega, ?_, hbm.symm⟩
  cases hv : verify_merkle H bd.root (claimLeaf H i claimer w) proof
  · exact absurd hv c6
  · rfl

/-- C1: after a first successful claim for index i the bitmap bit of i is
set and the epoch record is unchanged, and an identical second call fails
with the AlreadyClaimed error (ProgramError Custom 1 in the source).  The
erroring second call returns no state at all in this model, which is
exactly the all-or-nothing rollback: the bitmap and every other record are
left unchanged by the rejected retry. -/
theorem claim_succeeds_at_most_once
    (H : List Nat → List Nat) (claimer : List Nat)
    (bd : BoostDistributor) (bm : ClaimBitmap256) (e i w : Nat)
    (proof : List (List Nat)) (bd' : BoostDistributor) (bm' : ClaimBitmap256)
    (pay : Nat)
    (he : e < U64MOD) (hi : i < 2 ^ 32) (hw : w < U128MOD)
    (h32 : ∀ x ∈ proof, x.length = 32)
    (hfirst : op_claim H claimer bd bm (claimData e i w proof)
      = Except.ok (bd', bm', pay)) :
    Nat.testBit (bm'.words.getD (i / 8) 0) (i % 8) = true
      ∧ bd' = bd
      ∧ op_claim H claimer bd' bm' (claimData e i w proof)
          = Except.error (PErr.custom 1) := by
  rw [op_claim_claimData H claimer bd bm e i w proof he hi hw h32] at hfirst
  obtain ⟨hbd, hpay, hfit, hep, hW, hrange, hbit, hplen, hver, hbm⟩ :=
    claim_core_ok H claimer bd bm e i w proof bd' bm' pay hfirst
  have hword : bm'.words.getD (i / 8) 0
      = (bm.words.getD (i / 8) 0) ||| 2 ^ (i % 8) := by
    rw [hbm]
    exact getD_set_self bm.words (i / 8) _ hrange
  have hset : Nat.testBit (bm'.words.getD (i / 8) 0) (i % 8) = true := by
    rw [hword]
    simp [Nat.testBit_or, Nat.testBit_two_pow_self]
  refine ⟨hset, hbd, ?_⟩
  rw [op_claim_claimData H claimer bd' bm' e i w proof he hi hw h32]
  have hbit2 : (bm'.words.getD (i / 8) 0) &&& 2 ^ (i % 8) ≠ 0 := by
    rw [hword]
    intro hzero
    rw [land_two_pow_eq_zero_iff] at hzero
    have htrue : Nat.testBit (bm.words.getD (i / 8) 0 ||| 2 ^ (i % 8)) (i % 8) = true := by
      simp [Nat.testBit_or, Nat.testBit_two_pow_self]
    rw [htrue] at hzero
    exact Bool.noConfusion hzero
  unfold claim_core
  rw [if_neg (by rw [hbd]; simp [hep]), if_neg (by rw [hbd]; exact hW),
    if_neg (by rw [hbm]; simp only [List.length_set]; omega), if_pos hbit2]

/-- Witness for C1 at a concrete single-leaf claim: epoch 5, index 3,
weight 7, empty proof, constant hash equal to the posted root. -/
theorem claim_succeeds_at_most_once_witness :
    Nat.testBit ((ClaimBitmap256.mk ((List.replicate 32 0).set 0 8)).words.getD (3 / 8) 0) (3 % 8) = true
      ∧ (⟨5, List.replicate 32 7, 10, 100⟩ : BoostDistributor)
          = ⟨5, List.replicate 32 7, 10, 100⟩
      ∧ op_claim (fun _ => List.replicate 32 7) (List.replicate 32 0)
          ⟨5, List.replicate 32 7, 10, 100⟩
          (ClaimBitmap256.mk ((List.replicate 32 0).set 0 8))
          (claimData 5 3 7 [])
          = Except.error (PErr.custom 1) :=
  claim_succeeds_at_most_once (fun _ => List.replicate 32 7)
    (List.replicate 32 0) ⟨5, List.replicate 32 7, 10, 100⟩
    ⟨List.replicate 32 0⟩ 5 3 7 []
    ⟨5, List.replicate 32 7, 10, 100⟩
    (ClaimBitmap256.mk ((List.replicate 32 0).set 0 8)) 70
    (by norm_num [U64MOD]) (by norm_num) (by norm_num [U128MOD])
    (by intro x hx; cases hx)
    (by decide)

/-- C5: with all checks before the proof verification passing, the claim is
rejected with the ProofInvalid error (InvalidArgument in the source)
exactly when folding the domain-separated leaf through sorted-pair hashing
over the siblings in order does not yield the bound root; a proof with more
than 16 siblings is rejected with the ProofTooLong error
(InvalidInstructionData in the source); and with an empty proof the claim
can succeed only when the leaf equals the root exactly. -/
theorem claim_accepts_iff_merkle_path
    (H : List Nat → List Nat) (claimer : List Nat)
    (bd : BoostDistributor) (bm : ClaimBitmap256) (e i w : Nat)
    (proof : List (List Nat))
    (he : e < U64MOD) (hi : i < 2 ^ 32) (hw : w < U128MOD)
    (h32 : ∀ x ∈ proof, x.length = 32)
    (hep : bd.epoch = e) (hW : bd.total_weight ≠ 0)
    (hrange : i / 8 < bm.words.length)
    (hbit : (bm.words.getD (i / 8) 0) &&& 2 ^ (i % 8) = 0) :
    (proof.length ≤ 16 →
      (op_claim H claimer bd bm (claimData e i w proof)
          = Except.error PErr.invalidArgument
        ↔ proof.foldl (fun cur node => sortedPairHash H cur node)
            (claimLeaf H i claimer w) ≠ bd.root))
    ∧ (proof.length > 16 →
        op_claim H claimer bd bm (claimData e i w proof)
          = Except.error PErr.invalidInstructionData)
    ∧ (proof = [] →
        (∃ out, op_claim H claimer bd bm (claimData e i w proof)
          = Except.ok out) →
        claimLeaf H i claimer w = bd.root) := by
  rw [op_claim_claimData H claimer bd bm e i w proof he hi hw h32]
  unfold claim_core
  rw [if_neg (not_ne_iff.mpr hep), if_neg hW, if_neg (by omega),
    if_neg (not_ne_iff.mpr hbit)]
  refine ⟨?_, ?_, ?_⟩
  · intro h16
    rw [if_neg (by omega)]
    constructor
    · intro herr
      by_cases hv : verify_merkle H bd.root (claimLeaf H i claimer w) proof = false
      · unfold verify_merkle at hv
        exact beq_eq_false_iff_ne.mp hv
      · exfalso
        rw [if_neg hv] at herr
        by_cases hc : claimAmount bd w ≥ U64MOD
        · rw [if_pos hc] at herr
          simp at herr
        · rw [if_neg hc] at herr
          exact Except.noConfusion herr
    · intro hne
      have hv : verify_merkle H bd.root (claimLeaf H i claimer w) proof = false := by
        unfold verify_merkle
        exact beq_eq_false_iff_ne.mpr hne
      rw [if_pos hv]
  · intro h16
    rw [if_pos h16]
  · intro hnil hex
    subst hnil
    obtain ⟨out, hout⟩ := hex
    rw [if_neg (by simp)] at hout
    by_cases hv : verify_merkle H bd.root (claimLeaf H i claimer w) [] = false
    · rw [if_pos hv] at hout
      exact Except.noConfusion hout
    · have hv2 : verify_merkle H bd.root (claimLeaf H i claimer w) [] = true := by
        cases h : verify_merkle H bd.root (claimLeaf H i claimer w) []
        · exact absurd h hv
        · rfl
      unfold verify_merkle at hv2
      rw [List.foldl_nil] at hv2
      exact beq_iff_eq.mp hv2

/-- Witness for C5 at a concrete single-leaf claim: epoch 5, index 4,
weight 7, empty proof, constant hash equal to the posted root. -/
theorem claim_accepts_iff_merkle_path_witness :
    (([] : List (List Nat)).length ≤ 16 →
      (op_claim (fun _ => List.replicate 32 7) (List.replicate 32 0)
          ⟨5, List.replicate 32 7, 10, 100⟩ ⟨List.replicate 32 0⟩
          (claimData 5 4 7 [])
          = Except.error PErr.invalidArgument
        ↔ ([] : List (List Nat)).foldl
            (fun cur node => sortedPairHash (fun _ => List.replicate 32 7) cur node)
            (claimLeaf (fun _ => List.replicate 32 7) 4 (List.replicate 32 0) 7)
            ≠ List.replicate 32 7))
    ∧ (([] : List (List Nat)).length > 16 →
        op_claim (fun _ => List.replicate 32 7) (List.replicate 32 0)
          ⟨5, List.replicate 32 7, 10, 100⟩ ⟨List.replicate 32 0⟩
          (claimData 5 4 7 [])
          = Except.error PErr.invalidInstructionData)
    ∧ (([] : List (List Nat)) = [] →
        (∃ out, op_claim (fun _ => List.replicate 32 7) (List.replicate 32 0)
          ⟨5, List.replicate 32 7, 10, 100⟩ ⟨List.replicate 32 0⟩
          (claimData 5 4 7 [])
          = Except.ok out) →
        claimLeaf (fun _ => List.replicate 32 7) 4 (List.replicate 32 0) 7
          = List.replicate 32 7) :=
  claim_accepts_iff_merkle_path (fun _ => List.replicate 32 7)
    (List.replicate 32 0) ⟨5, List.replicate 32 7, 10, 100⟩
    ⟨List.replicate 32 0⟩ 5 4 7 []
    (by norm_num [U64MOD]) (by norm_num) (by norm_num [U128MOD])
    (by intro x hx; cases hx) rfl (by norm_num)
    (by simp) (by decide)

/-- C2 counterexample: with boost_total = 2, weight = 2^127 and
total_weight = 2^127 the claim succeeds, but the saturating u128 multiply
clamps the product 2 * 2^127 = 2^128 to 2^128 - 1, so the payout is 1
while the exact floor value is 2. -/
theorem claim_payout_saturation_cex :
    op_claim (fun _ => List.replicate 32 7) (List.replicate 32 0)
      ⟨5, List.replicate 32 7, 2 ^ 127, 2⟩ ⟨List.replicate 32 0⟩
      (claimData 5 0 (2 ^ 127) [])
      = Except.ok (⟨5, List.replicate 32 7, 2 ^ 127, 2⟩,
          ClaimBitmap256.mk ((List.replicate 32 0).set 0 1), 1)
    ∧ (1 : Nat) ≠ 2 * 2 ^ 127 / 2 ^ 127 := by
  constructor
  · decide
  · norm_num

/-- C2 (amended): for every successful claim the payout is
floor(saturate_u128(boost_total * weight) / total_weight); whenever the
product boost_total * weight does not overflow u128 (in particular for
every weight below 2^64) this equals the exact
floor(boost_total * weight / total_weight). -/
theorem claim_payout_exact_without_overflow
    (H : List Nat → List Nat) (claimer : List Nat)
    (bd : BoostDistributor) (bm : ClaimBitmap256) (e i w : Nat)
    (proof : List (List Nat)) (bd' : BoostDistributor) (bm' : ClaimBitmap256)
    (pay : Nat)
    (hprod : bd.boost_total * w < U128MOD)
    (hok : claim_core H claimer bd bm e i w proof = Except.ok (bd', bm', pay)) :
    pay = bd.boost_total * w / bd.total_weight := by
  obtain ⟨-, hpay, -⟩ :=
    claim_core_ok H claimer bd bm e i w proof bd' bm' pay hok
  rw [hpay]
  unfold claimAmount
  rw [min_eq_left (by omega)]

/-- Witness for the amended C2: boost_total = 100, weight = 7,
total_weight = 10, payout 70 = floor(100 * 7 / 10). -/
theorem claim_payout_exact_without_overflow_witness :
    (70 : Nat) = (⟨5, List.replicate 32 7, 10, 100⟩ : BoostDistributor).boost_total * 7
      / (⟨5, List.replicate 32 7, 10, 100⟩ : BoostDistributor).total_weight :=
  claim_payout_exact_without_overflow (fun _ => List.replicate 32 7)
    (List.replicate 32 0) ⟨5, List.replicate 32 7, 10, 100⟩
    ⟨List.replicate 32 0⟩ 5 6 7 []
    ⟨5, List.replicate 32 7, 10, 100⟩
    (ClaimBitmap256.mk ((List.replicate 32 0).set 0 64)) 70
    (by norm_num [U128MOD]) (by decide)

/-- C3 counterexample: in the concrete scenario total_weight = 301,
boost_total = 301, weight = 100 the code pays 100, not the 99 stated by
the specification (301 * 100 / 301 = 100 exactly). -/
theorem claim_301_scenario_cex :
    op_claim (fun _ => List.replicate 32 7) (List.replicate 32 0)
      ⟨5, List.replicate 32 7, 301, 301⟩ ⟨List.replicate 32 0⟩
      (claimData 5 0 100 [])
      = Except.ok (⟨5, List.replicate 32 7, 301, 301⟩,
          ClaimBitmap256.mk ((List.replicate 32 0).set 0 1), 100)
    ∧ (100 : Nat) ≠ 99 := by
  constructor
  · decide
  · norm_num

/-- C3 (amended): in the scenario total_weight = 301, boost_total = 301,
weight = 100 the payout is floor(301 * 100 / 301) = 100, not 99. -/
theorem claim_301_scenario :
    op_claim (fun _ => List.replicate 32 7) (List.replicate 32 0)
      ⟨5, List.replicate 32 7, 301, 301⟩ ⟨List.replicate 32 0⟩
      (claimData 5 0 100 [])
      = Except.ok (⟨5, List.replicate 32 7, 301, 301⟩,
          ClaimBitmap256.mk ((List.replicate 32 0).set 0 1), 301 * 100 / 301)
    ∧ 301 * 100 / 301 = 100 := by
  constructor
  · decide
  · norm_num

/-- One request of the claim instruction. -/
structure ClaimReq where
  claimer : List Nat
  epoch : Nat
  index : Nat
  weight : Nat
  proof : List (List Nat)
  deriving DecidableEq

/-- Run a list of claim requests against one epoch record, threading the
bitmap (a claim never modifies the distributor, cf claim_core_ok).
Returns the final bitmap, the sum of the payouts of the successful
requests, and the sum of their weights. -/
def runClaims (H : List Nat → List Nat) (bd : BoostDistributor) :
    ClaimBitmap256 → List ClaimReq → ClaimBitmap256 × Nat × Nat
  | bm, [] => (bm, 0, 0)
  | bm, r :: rs =>
    match claim_core H r.claimer bd bm r.epoch r.index r.weight r.proof with
    | Except.ok (_, bm1, pay) =>
      let rest := runClaims H bd bm1 rs
      (rest.1, pay + rest.2.1, r.weight + rest.2.2)
    | Except.error _ => runClaims H bd bm rs

lemma runClaims_paid_le (H : List Nat → List Nat) (bd : BoostDistributor) :
    ∀ (reqs : List ClaimReq) (bm : ClaimBitmap256),
      (runClaims H bd bm reqs).2.1
        ≤ bd.boost_total * (runClaims H bd bm reqs).2.2 / bd.total_weight := by
  intro reqs
  induction reqs with
  | nil => intro bm; simp [runClaims]
  | cons r rs ih =>
    intro bm
    cases hc : claim_core H r.claimer bd bm r.epoch r.index r.weight r.proof with
    | error err => simpa [runClaims, hc] using ih bm
    | ok out =>
      obtain ⟨bd1, bm1, pay⟩ := out
      have hshape :=
        claim_core_ok H r.claimer bd bm r.epoch r.index r.weight r.proof bd1 bm1 pay hc
      have hpay1 : pay ≤ bd.boost_total * r.weight / bd.total_weight := by
        rw [hshape.2.1]
        unfold claimAmount
        exact Nat.div_le_div_right (min_le_left _ _)
      simp only [runClaims, hc]
      calc pay + (runClaims H bd bm1 rs).2.1
          ≤ bd.boost_total * r.weight / bd.total_weight
              + bd.boost_total * (runClaims H bd bm1 rs).2.2 / bd.total_weight :=
            Nat.add_le_add hpay1 (ih bm1)
        _ ≤ (bd.boost_total * r.weight
              + bd.boost_total * (runClaims H bd bm1 rs).2.2) / bd.total_weight :=
            Nat.add_div_le_add_div _ _ _
        _ = bd.boost_total * (r.weight + (runClaims H bd bm1 rs).2.2)
              / bd.total_weight := by rw [Nat.mul_add]

/-- C4: over any run of claim requests against one epoch record, if the
weights of the successful claims sum to at most total_weight, then the sum
of the payouts is at most boost_total: the claim mechanism can never pay
out more than boost_total in total. -/
theorem claims_cannot_drain_more_than_boost
    (H : List Nat → List Nat) (bd : BoostDistributor) (bm : ClaimBitmap256)
    (reqs : List ClaimReq)
    (hW : bd.total_weight ≠ 0)
    (hsum : (runClaims H bd bm reqs).2.2 ≤ bd.total_weight) :
    (runClaims H bd bm reqs).2.1 ≤ bd.boost_total := by
  calc (runClaims H bd bm reqs).2.1
      ≤ bd.boost_total * (runClaims H bd bm reqs).2.2 / bd.total_weight :=
        runClaims_paid_le H bd reqs bm
    _ ≤ bd.boost_total * bd.total_weight / bd.total_weight :=
        Nat.div_le_div_right (Nat.mul_le_mul_left _ hsum)
    _ = bd.boost_total := Nat.mul_div_cancel _ (Nat.pos_of_ne_zero hW)

/-- Witness for C4: two successful single-leaf claims of weights 3 and 4
against total_weight 10, boost_total 100; they pay 30 + 40 = 70 ≤ 100. -/
theorem claims_cannot_drain_more_than_boost_witness :
    (runClaims (fun _ => List.replicate 32 7) ⟨1, List.replicate 32 7, 10, 100⟩
      ⟨List.replicate 32 0⟩
      [⟨List.replicate 32 0, 1, 0, 3, []⟩, ⟨List.replicate 32 0, 1, 1, 4, []⟩]).2.1
    ≤ (100 : Nat) :=
  claims_cannot_drain_more_than_boost (fun _ => List.replicate 32 7)
    ⟨1, List.replicate 32 7, 10, 100⟩ ⟨List.replicate 32 0⟩
    [⟨List.replicate 32 0, 1, 0, 3, []⟩, ⟨List.replicate 32 0, 1, 1, 4, []⟩]
    (by norm_num) (by decide)

-- ---------- Donate lemmas ----------

lemma donate_core_split (st : VaultState) (bdOpt : Option BoostDistributor)
    (amount epoch boost_bps : Nat) (st1 : VaultState)
    (bdOpt' : Option BoostDistributor) (boost base : Nat)
    (h : donate_core st bdOpt amount epoch boost_bps
      = Except.ok (st1, bdOpt', boost, base)) :
    boost = amount * boost_bps % U64MOD / 10000
      ∧ base = (amount + (U64MOD - amount * boost_bps % U64MOD / 10000)) % U64MOD := by
  simp only [donate_core] at h
  cases hA : applyBaseYield st
      ((amount + (U64MOD - amount * boost_bps % U64MOD / 10000)) % U64MOD) with
  | error e => simp only [hA] at h; exact Except.noConfusion h
  | ok stA =>
    simp only [hA] at h
    cases bdOpt with
    | none =>
      simp only [Except.ok.injEq, Prod.mk.injEq] at h
      exact ⟨h.2.2.1.symm, h.2.2.2.symm⟩
    | some bd =>
      cases hU : updateDistributor bd epoch (amount * boost_bps % U64MOD / 10000) with
      | error e => simp only [hU] at h; exact Except.noConfusion h
      | ok bdA =>
        simp only [hU, Except.ok.injEq, Prod.mk.injEq] at h
        exact ⟨h.2.2.1.symm, h.2.2.2.symm⟩

/-- C6 counterexample: donate with amount 2^61 and boost_bps 10000.  The
u64 product amount * boost_bps equals 1250 * 2^64 and wraps to 0, so the
boost share is 0 and the whole donation goes to base yield, while the
claim demands boost = floor(amount * boost_bps / 10000) = 2^61 and a base
contribution of 0. -/
theorem donate_split_overflow_cex :
    op_donate ⟨1, RAY, 0⟩ none
      (toLE 8 (2 ^ 61) ++ toLE 8 0 ++ toLE 2 10000 ++ [6])
      = Except.ok (⟨1, RAY + 2 ^ 61 * RAY, 0⟩, none, 0, 2 ^ 61)
    ∧ (0 : Nat) ≠ 2 ^ 61 * 10000 / 10000 := by
  constructor
  · decide
  · norm_num

/-- C6 (amended): when the u64 product amount * boost_bps does not
overflow, donate splits the donation as boost = floor(amount * boost_bps
/ 10000) and base = amount - boost (for boost_bps at most 10000); in
particular boost_bps = 0 routes the full amount to base yield and
boost_bps = 10000 routes the full amount to boost with base 0. -/
theorem donate_split_without_overflow
    (st : VaultState) (bdOpt : Option BoostDistributor)
    (amount epoch boost_bps : Nat) (st1 : VaultState)
    (bdOpt' : Option BoostDistributor) (boost base : Nat)
    (ham : amount < U64MOD)
    (hprod : amount * boost_bps < U64MOD)
    (h : donate_core st bdOpt amount epoch boost_bps
      = Except.ok (st1, bdOpt', boost, base)) :
    boost = amount * boost_bps / 10000
      ∧ (boost_bps ≤ 10000 → base = amount - boost)
      ∧ (boost_bps = 0 → boost = 0 ∧ base = amount)
      ∧ (boost_bps = 10000 → boost = amount ∧ base = 0) := by
  obtain ⟨hboost, hbase⟩ :=
    donate_core_split st bdOpt amount epoch boost_bps st1 bdOpt' boost base h
  rw [Nat.mod_eq_of_lt hprod] at hboost hbase
  rw [← hboost] at hbase
  have hble : boost_bps ≤ 10000 → boost ≤ amount := by
    intro hbps
    rw [hboost]
    calc amount * boost_bps / 10000 ≤ amount * 10000 / 10000 :=
          Nat.div_le_div_right (Nat.mul_le_mul_left _ hbps)
      _ = amount := Nat.mul_div_cancel _ (by norm_num)
  have hbase2 : boost_bps ≤ 10000 → base = amount - boost := by
    intro hbps
    have hb := hble hbps
    have hlt : boost < U64MOD := Nat.lt_of_le_of_lt hb ham
    have hsum : amount + (U64MOD - boost) = U64MOD + (amount - boost) := by omega
    rw [hbase, hsum, Nat.add_mod_left, Nat.mod_eq_of_lt (by omega)]
  refine ⟨hboost, hbase2, ?_, ?_⟩
  · intro h0
    subst h0
    have hz : boost = 0 := by rw [hboost]; simp
    refine ⟨hz, ?_⟩
    rw [hbase2 (by norm_num), hz]
    omega
  · intro h10
    subst h10
    have hba : boost = amount := by
      rw [hboost]
      exact Nat.mul_div_cancel _ (by norm_num)
    refine ⟨hba, ?_⟩
    rw [hbase2 (le_refl _), hba]
    omega

/-- Witness for the amended C6: donate of 500 at 2500 basis points splits
into boost 125 and base 375. -/
theorem donate_split_without_overflow_witness :
    (125 : Nat) = 500 * 2500 / 10000
      ∧ ((2500 : Nat) ≤ 10000 → (375 : Nat) = 500 - 125)
      ∧ ((2500 : Nat) = 0 → (125 : Nat) = 0 ∧ (375 : Nat) = 500)
      ∧ ((2500 : Nat) = 10000 → (125 : Nat) = 500 ∧ (375 : Nat) = 0) :=
  donate_split_without_overflow ⟨0, RAY, 0⟩ none 500 3 2500
    ⟨0, RAY, 375⟩ none 125 375
    (by norm_num [U64MOD]) (by norm_num [U64MOD]) (by decide)

/-- C10 counterexample: a donate call supplied with an unbound epoch record
(epoch field 0) writes the record's epoch field, binding it to the
donation's epoch 7; the epoch field is therefore not written only by
postRoot. -/
theorem donate_writes_epoch_cex :
    op_donate ⟨1, RAY, 0⟩ (some ⟨0, List.replicate 32 7, 50, 10⟩)
      (toLE 8 100 ++ toLE 8 7 ++ toLE 2 1000 ++ [6])
      = Except.ok (⟨1, 91 * RAY, 0⟩, some ⟨7, List.replicate 32 7, 50, 20⟩, 10, 90)
    ∧ (7 : Nat) ≠ 0 := by
  constructor
  · decide
  · norm_num

/-- C10 (amended): a successful donate supplied with an epoch record never
writes the record's root or total_weight fields (those are written only by
postRoot); it adds the boost portion to boost_total with a saturating u64
add; when the record is already bound (epoch nonzero) the epoch field is
unchanged, and when it is unbound (epoch 0) donate binds the epoch field
to the supplied epoch. -/
theorem donate_record_frame
    (st : VaultState) (bd : BoostDistributor) (amount epoch boost_bps : Nat)
    (st1 : VaultState) (bd' : BoostDistributor) (boost base : Nat)
    (h : donate_core st (some bd) amount epoch boost_bps
      = Except.ok (st1, some bd', boost, base)) :
    bd'.root = bd.root ∧ bd'.total_weight = bd.total_weight
      ∧ (bd.epoch ≠ 0 → bd'.epoch = bd.epoch)
      ∧ (bd.epoch = 0 → bd'.epoch = epoch)
      ∧ bd'.boost_total = min (bd.boost_total + boost) (U64MOD - 1) := by
  obtain ⟨hboost, hbase⟩ :=
    donate_core_split st (some bd) amount epoch boost_bps st1 (some bd') boost base h
  simp only [donate_core] at h
  cases hA : applyBaseYield st
      ((amount + (U64MOD - amount * boost_bps % U64MOD / 10000)) % U64MOD) with
  | error e => simp only [hA] at h; exact Except.noConfusion h
  | ok stA =>
    simp only [hA] at h
    cases hU : updateDistributor bd epoch (amount * boost_bps % U64MOD / 10000) with
    | error e => simp only [hU] at h; exact Except.noConfusion h
    | ok bdA =>
      simp only [hU, Except.ok.injEq, Prod.mk.injEq, Option.some.injEq] at h
      obtain ⟨hstA, hbdA, hb1, hb2⟩ := h
      subst hbdA
      rw [← hboost] at hU
      simp only [updateDistributor] at hU
      by_cases hz : bd.epoch = 0
      · rw [if_pos hz] at hU
        rw [if_neg (by simp)] at hU
        simp only [Except.ok.injEq] at hU
        subst hU
        exact ⟨rfl, rfl, fun hne => absurd hz hne, fun _ => rfl, rfl⟩
      · rw [if_neg hz] at hU
        by_cases hme : bd.epoch ≠ epoch
        · rw [if_pos hme] at hU; exact Except.noConfusion hU
        · rw [if_neg hme] at hU
          simp only [Except.ok.injEq] at hU
          subst hU
          exact ⟨rfl, rfl, fun _ => rfl, fun h0 => absurd h0 hz, rfl⟩

/-- Witness for the amended C10: donate of 100 at 1000 basis points into a
record bound to epoch 7 leaves root, total_weight and epoch unchanged and
adds the boost 10 to boost_total. -/
theorem donate_record_frame_witness :
    (⟨7, List.replicate 32 7, 50, 20⟩ : BoostDistributor).root
        = (⟨7, List.replicate 32 7, 50, 10⟩ : BoostDistributor).root
      ∧ (⟨7, List.replicate 32 7, 50, 20⟩ : BoostDistributor).total_weight
        = (⟨7, List.replicate 32 7, 50, 10⟩ : BoostDistributor).total_weight
      ∧ ((⟨7, List.replicate 32 7, 50, 10⟩ : BoostDistributor).epoch ≠ 0 →
          (⟨7, List.replicate 32 7, 50, 20⟩ : BoostDistributor).epoch
            = (⟨7, List.replicate 32 7, 50, 10⟩ : BoostDistributor).epoch)
      ∧ ((⟨7, List.replicate 32 7, 50, 10⟩ : BoostDistributor).epoch = 0 →
          (⟨7, List.replicate 32 7, 50, 20⟩ : BoostDistributor).epoch = 7)
      ∧ (⟨7, List.replicate 32 7, 50, 20⟩ : BoostDistributor).boost_total
        = min ((⟨7, List.replicate 32 7, 50, 10⟩ : BoostDistributor).boost_total + 10)
            (U64MOD - 1) :=
  donate_record_frame ⟨1, RAY, 0⟩ ⟨7, List.replicate 32 7, 50, 10⟩ 100 7 1000
    ⟨1, 91 * RAY, 0⟩ ⟨7, List.replicate 32 7, 50, 20⟩ 10 90
    (by decide)

-- ---------- Deposit and withdraw lemmas ----------

lemma settleBuffer_noop (st : VaultState) (h : st.buffered_base = 0) :
    settleBuffer st = Except.ok st := by
  unfold settleBuffer
  rw [if_neg (by simp [h])]

lemma settleBuffer_fires (st stA : VaultState)
    (hb : st.buffered_base > 0) (hs : st.total_shares > 0)
    (h : settleBuffer st = Except.ok stA) :
    stA = { st with
            pps := st.pps + st.buffered_base * RAY / st.total_shares,
            buffered_base := 0 } := by
  unfold settleBuffer at h
  rw [if_pos ⟨hb, hs⟩] at h
  by_cases hov : st.pps + st.buffered_base * RAY / st.total_shares < U128MOD
  · rw [if_pos hov] at h
    simp only [Except.ok.injEq] at h
    exact h.symm
  · rw [if_neg hov] at h
    exact Except.noConfusion h

/-- Shape of a successful parsed deposit: the buffer settlement succeeded,
the settled pps is nonzero, the minted shares are amount * RAY / pps at
the settled price, they fit in u64, and total_shares is increased by them. -/
lemma deposit_core_ok (st : VaultState) (amount : Nat) (st1 : VaultState)
    (shares : Nat) (h : deposit_core st amount = Except.ok (st1, shares)) :
    ∃ stA, settleBuffer st = Except.ok stA
      ∧ stA.pps ≠ 0
      ∧ shares = amount * RAY / stA.pps
      ∧ shares < U64MOD
      ∧ stA.total_shares + shares < U128MOD
      ∧ st1 = { stA with total_shares := stA.total_shares + shares } := by
  simp only [deposit_core] at h
  cases hS : settleBuffer st with
  | error e => simp only [hS] at h; exact Except.noConfusion h
  | ok stA =>
    simp only [hS] at h
    by_cases hz : stA.pps = 0
    · rw [if_pos hz] at h; exact Except.noConfusion h
    rw [if_neg hz] at h
    by_cases hsh : amount * RAY / stA.pps ≥ U64MOD
    · rw [if_pos hsh] at h; exact Except.noConfusion h
    rw [if_neg hsh] at h
    by_cases hov : stA.total_shares + amount * RAY / stA.pps < U128MOD
    · rw [if_pos hov] at h
      simp only [Except.ok.injEq, Prod.mk.injEq] at h
      obtain ⟨hst, hsh2⟩ := h
      refine ⟨stA, rfl, hz, hsh2.symm, by omega, by omega, ?_⟩
      rw [← hst, hsh2]
    · rw [if_neg hov] at h
      exact Except.noConfusion h

/-- Shape of a successful parsed withdraw: the checked multiply and the
u64 conversion passed, the burned shares were covered by total_shares,
amount_out = shares * pps / RAY, and total_shares is decreased. -/
lemma withdraw_core_ok (st : VaultState) (s : Nat) (st1 : VaultState)
    (amt : Nat) (h : withdraw_core st s = Except.ok (st1, amt)) :
    amt = s * st.pps / RAY ∧ s ≤ st.total_shares
      ∧ st1 = { st with total_shares := st.total_shares - s } := by
  simp only [withdraw_core] at h
  by_cases c1 : s * st.pps ≥ U128MOD
  · rw [if_pos c1] at h; exact Except.noConfusion h
  rw [if_neg c1] at h
  by_cases c2 : s * st.pps / RAY ≥ U64MOD
  · rw [if_pos c2] at h; exact Except.noConfusion h
  rw [if_neg c2] at h
  by_cases c3 : s ≤ st.total_shares
  · rw [if_pos c3] at h
    simp only [Except.ok.injEq, Prod.mk.injEq] at h
    exact ⟨h.2.symm, c3, h.1.symm⟩
  · rw [if_neg c3] at h
    exact Except.noConfusion h

/-- C8: a deposit reaching a state with a pending buffer and live shares
first folds floor(buffered_base * RAY / total_shares) into pps and zeroes
the buffer, then computes the minted shares at the settled price; and a
further deposit from the settled state leaves pps unchanged and the buffer
zero - the buffered donation is folded into the share price exactly once
and the subsequent settlement of the zero buffer is a no-op. -/
theorem deposit_settles_buffer_exactly_once
    (st : VaultState) (amount amount2 : Nat) (st1 st2 : VaultState)
    (shares shares2 : Nat)
    (hb : st.buffered_base > 0) (hs : st.total_shares > 0)
    (h : deposit_core st amount = Except.ok (st1, shares))
    (h2 : deposit_core st1 amount2 = Except.ok (st2, shares2)) :
    st1.pps = st.pps + st.buffered_base * RAY / st.total_shares
      ∧ st1.buffered_base = 0
      ∧ shares = amount * RAY / st1.pps
      ∧ st2.pps = st1.pps ∧ st2.buffered_base = 0 := by
  obtain ⟨stA, hS, hz, hsh, hfit, hov, hst1⟩ := deposit_core_ok st amount st1 shares h
  have hA := settleBuffer_fires st stA hb hs hS
  subst hA
  have h1pps : st1.pps = st.pps + st.buffered_base * RAY / st.total_shares := by
    rw [hst1]
  have h1buf : st1.buffered_base = 0 := by
    rw [hst1]
  refine ⟨h1pps, h1buf, by rw [hsh, h1pps], ?_, ?_⟩
  · obtain ⟨stB, hSB, hzB, hshB, hfitB, hovB, hst2⟩ :=
      deposit_core_ok st1 amount2 st2 shares2 h2
    rw [settleBuffer_noop st1 h1buf] at hSB
    simp only [Except.ok.injEq] at hSB
    subst hSB
    rw [hst2]
  · obtain ⟨stB, hSB, hzB, hshB, hfitB, hovB, hst2⟩ :=
      deposit_core_ok st1 amount2 st2 shares2 h2
    rw [settleBuffer_noop st1 h1buf] at hSB
    simp only [Except.ok.injEq] at hSB
    subst hSB
    rw [hst2, h1buf]

/-- Witness for C8: from state (total_shares 10, pps RAY, buffer 50) a
deposit of 7 settles the buffer to price 6 * RAY and mints 1 share; a
second deposit of 12 leaves the price unchanged. -/
theorem deposit_settles_buffer_exactly_once_witness :
    (⟨11, 6 * RAY, 0⟩ : VaultState).pps
        = (⟨10, RAY, 50⟩ : VaultState).pps + 50 * RAY / 10
      ∧ (⟨11, 6 * RAY, 0⟩ : VaultState).buffered_base = 0
      ∧ (1 : Nat) = 7 * RAY / (⟨11, 6 * RAY, 0⟩ : VaultState).pps
      ∧ (⟨13, 6 * RAY, 0⟩ : VaultState).pps = (⟨11, 6 * RAY, 0⟩ : VaultState).pps
      ∧ (⟨13, 6 * RAY, 0⟩ : VaultState).buffered_base = 0 :=
  deposit_settles_buffer_exactly_once ⟨10, RAY, 50⟩ 7 12
    ⟨11, 6 * RAY, 0⟩ ⟨13, 6 * RAY, 0⟩ 1 2
    (by norm_num) (by norm_num) (by decide) (by decide)

-- ---------- Deposit / withdraw sequences without donations ----------

/-- One user operation on the vault. -/
inductive VaultOp where
  | dep (amount : Nat)
  | wdr (shares : Nat)
  deriving DecidableEq

/-- Accumulator of a run: current state, total deposited, total withdrawn,
and whether every floor division taken so far was exact. -/
structure RunAcc where
  st : VaultState
  deposited : Nat
  withdrawn : Nat
  allExact : Bool
  deriving DecidableEq

/-- One step of a run: a failing operation leaves everything unchanged
(host rollback); a successful deposit adds its amount to the deposit
total, a successful withdraw adds its output to the withdraw total.  The
allExact flag records exactness of the settle division, of the share
division at the settled price, and of the withdraw division. -/
def stepOp (acc : RunAcc) (op : VaultOp) : RunAcc :=
  match op with
  | VaultOp.dep a =>
    match deposit_core acc.st a with
    | Except.ok (st1, _) =>
      { st := st1, deposited := acc.deposited + a, withdrawn := acc.withdrawn,
        allExact := acc.allExact
          && (if acc.st.buffered_base > 0 ∧ acc.st.total_shares > 0
              then acc.st.buffered_base * RAY % acc.st.total_shares == 0
              else true)
          && (a * RAY % st1.pps == 0) }
    | Except.error _ => acc
  | VaultOp.wdr s =>
    match withdraw_core acc.st s with
    | Except.ok (st1, amt) =>
      { st := st1, deposited := acc.deposited, withdrawn := acc.withdrawn + amt,
        allExact := acc.allExact && (s * acc.st.pps % RAY == 0) }
    | Except.error _ => acc

/-- Run a sequence of operations from a freshly initialized vault. -/
def runVault (ops : List VaultOp) : RunAcc :=
  ops.foldl stepOp { st := initState, deposited := 0, withdrawn := 0, allExact := true }

/-- Invariant of donation-free runs: the price stays at RAY, the buffer
stays empty, the deposits exactly cover the withdrawals plus the live
shares, and every division so far was exact. -/
def NoDonationInv (acc : RunAcc) : Prop :=
  acc.st.pps = RAY ∧ acc.st.buffered_base = 0
    ∧ acc.deposited = acc.withdrawn + acc.st.total_shares
    ∧ acc.allExact = true

lemma stepOp_preserves (acc : RunAcc) (op : VaultOp)
    (h : NoDonationInv acc) : NoDonationInv (stepOp acc op) := by
  obtain ⟨hpps, hbuf, hbal, hex⟩ := h
  cases op with
  | dep a =>
    cases hd : deposit_core acc.st a with
    | error e =>
      simp only [stepOp, hd]
      exact ⟨hpps, hbuf, hbal, hex⟩
    | ok pr =>
      obtain ⟨st1, sh⟩ := pr
      obtain ⟨stA, hS, hz, hsh, hfit, hov, hst1⟩ := deposit_core_ok acc.st a st1 sh hd
      rw [settleBuffer_noop acc.st hbuf] at hS
      simp only [Except.ok.injEq] at hS
      subst hS
      have hsha : sh = a := by
        rw [hsh, hpps]
        exact Nat.mul_div_cancel a (by norm_num [RAY])
      simp only [stepOp, hd]
      refine ⟨by rw [hst1]; exact hpps, by rw [hst1]; exact hbuf, ?_, ?_⟩
      · show acc.deposited + a = acc.withdrawn + st1.total_shares
        rw [hst1]
        show acc.deposited + a = acc.withdrawn + (acc.st.total_shares + sh)
        omega
      · show (acc.allExact
            && (if acc.st.buffered_base > 0 ∧ acc.st.total_shares > 0
                then acc.st.buffered_base * RAY % acc.st.total_shares == 0
                else true)
            && (a * RAY % st1.pps == 0)) = true
        rw [hst1, hex, if_neg (by simp [hbuf])]
        show (true && true && (a * RAY % acc.st.pps == 0)) = true
        rw [hpps]
        simp [Nat.mul_mod_left]
  | wdr s =>
    cases hd : withdraw_core acc.st s with
    | error e =>
      simp only [stepOp, hd]
      exact ⟨hpps, hbuf, hbal, hex⟩
    | ok pr =>
      obtain ⟨st1, amt⟩ := pr
      obtain ⟨hamt, hle, hst1⟩ := withdraw_core_ok acc.st s st1 amt hd
      have hamts : amt = s := by
        rw [hamt, hpps]
        exact Nat.mul_div_cancel s (by norm_num [RAY])
      simp only [stepOp, hd]
      refine ⟨by rw [hst1]; exact hpps, by rw [hst1]; exact hbuf, ?_, ?_⟩
      · show acc.deposited = acc.withdrawn + amt + st1.total_shares
        rw [hst1]
        show acc.deposited = acc.withdrawn + amt + (acc.st.total_shares - s)
        omega
      · show (acc.allExact && (s * acc.st.pps % RAY == 0)) = true
        rw [hex, hpps]
        simp [Nat.mul_mod_left]

lemma foldl_stepOp_inv (ops : List VaultOp) :
    ∀ acc : RunAcc, NoDonationInv acc → NoDonationInv (ops.foldl stepOp acc) := by
  induction ops with
  | nil => intro acc h; exact h
  | cons op rest ih =>
    intro acc h
    exact ih _ (stepOp_preserves acc op h)

/-- C7: over every sequence of deposits and withdrawals from a freshly
initialized vault with no donations, the total withdrawn never exceeds the
total deposited, and equality can only hold when every floor division
taken along the run was exact (with no donations the price stays at RAY
and every division is in fact exact, so the rounding never favors the
depositor). -/
theorem withdrawals_never_exceed_deposits (ops : List VaultOp) :
    (runVault ops).withdrawn ≤ (runVault ops).deposited
      ∧ ((runVault ops).withdrawn = (runVault ops).deposited →
          (runVault ops).allExact = true) := by
  unfold runVault
  obtain ⟨hpps, hbuf, hbal, hex⟩ :=
    foldl_stepOp_inv ops
      { st := initState, deposited := 0, withdrawn := 0, allExact := true }
      ⟨rfl, rfl, rfl, rfl⟩
  exact ⟨by omega, fun _ => hex⟩

/-- C9 (exhibiting the code bug): every payload-carrying operation slices
its fixed-width fields without a length check, so an instruction whose
payload is shorter than the field layout makes the program panic with an
out-of-bounds slice index instead of returning an error code. -/
theorem short_payload_crashes :
    op_deposit initState [] = Except.error PErr.crashed
      ∧ op_withdraw initState [] = Except.error PErr.crashed
      ∧ op_donate initState none [] = Except.error PErr.crashed
      ∧ op_post_root ⟨0, List.replicate 32 0, 0, 0⟩ [] = Except.error PErr.crashed
      ∧ op_claim (fun _ => List.replicate 32 7) (List.replicate 32 0)
          ⟨0, List.replicate 32 0, 0, 0⟩ ⟨List.replicate 32 0⟩ []
          = Except.error PErr.crashed := by
  refine ⟨by decide, by decide, by decide, by decide, by decide⟩

end InterestVault
